import Mathlib

/-!
Verification of the emailToTaskDev repository's client logic and of the
fetch-emails pipeline described by its specification.

The embedding is shallow: React hook state becomes explicit state records,
each stateful handler becomes a function from the old state (and the outcome
of the one awaited API call, passed as an `Except` value) to the new state.
The sources embedded here are:
  * src/client/src/hooks/useTasks.ts and useCalendarEvents.ts (the hooks'
    loadTasks / loadEvents / deleteTask / deleteEvent handlers);
  * src/client/src/pages/Converter.tsx (handleSubmit: parameter building and
    snackbar reporting);
  * the static front end's emailProcessor and form submit handler
    (src/unnamed/part_005, the app.js variant whose submit handler processes
    the fetch result in the page);
  * utils.saveSettings / utils.loadSettings from the same file, with a
    concrete executable model of the platform JSON codec on the flat
    string-to-string objects that form data produces.
The server side of /api/fetch-emails and the processed.json store are not
among the repository files here; they are modelled from the specification's
words, and each such definition says so in its doc comment.
-/

namespace EmailToTask

/-- A task record as the client holds it (src/client/src/api.ts Task, as used
by useTasks: only the id field is inspected by the embedded handlers). -/
structure ClientTask where
  id : Int
  title : String
deriving DecidableEq, Repr

/-- A calendar event record as the client holds it. -/
structure ClientCalendarEvent where
  id : Int
  summary : String
deriving DecidableEq, Repr

/-- The state of the useTasks hook: the tasks list, the loading flag and the
error message (None models the null error state). -/
structure TasksState where
  tasks : List ClientTask
  loading : Bool
  error : Option String
deriving DecidableEq, Repr

/-- The state of the useCalendarEvents hook. -/
structure EventsState where
  events : List ClientCalendarEvent
  loading : Bool
  error : Option String
deriving DecidableEq, Repr

/-- loadTasks (src/client/src/hooks/useTasks.ts lines 9-23): set loading and
clear the error, await api.getAllTasks (its outcome is the `apiResult`
argument), on success store data.tasks, on a throw record the message and
rethrow; the finally block resets loading. -/
def loadTasks (s : TasksState) (apiResult : Except String (List ClientTask)) :
    TasksState :=
  match apiResult with
  | Except.ok data => { tasks := data, loading := false, error := none }
  | Except.error msg => { tasks := s.tasks, loading := false, error := some msg }

/-- loadEvents (src/client/src/hooks/useCalendarEvents.ts lines 9-23),
identical in shape to loadTasks. -/
def loadEvents (s : EventsState)
    (apiResult : Except String (List ClientCalendarEvent)) : EventsState :=
  match apiResult with
  | Except.ok data => { events := data, loading := false, error := none }
  | Except.error msg => { events := s.events, loading := false, error := some msg }

/-- deleteTask (src/client/src/hooks/useTasks.ts lines 58-69): clear the
error, await api.deleteTask; on success filter the task out of local state
with `task.id !== taskId`; on a throw record the message and leave the list
alone. The loading flag is untouched. -/
def deleteTask (s : TasksState) (taskId : Int) (apiResult : Except String Unit) :
    TasksState :=
  match apiResult with
  | Except.ok _ =>
      { s with error := none, tasks := s.tasks.filter (fun t => t.id != taskId) }
  | Except.error msg => { s with error := some msg }

/-- deleteEvent (src/client/src/hooks/useCalendarEvents.ts lines 25-36),
identical in shape to deleteTask. -/
def deleteEvent (s : EventsState) (eventId : Int)
    (apiResult : Except String Unit) : EventsState :=
  match apiResult with
  | Except.ok _ =>
      { s with error := none, events := s.events.filter (fun e => e.id != eventId) }
  | Except.error msg => { s with error := some msg }

namespace Converter

/-- The fetch-emails request parameters as the Converter page builds them
(src/client/src/pages/Converter.tsx baseFormData, lines 62-70): provider,
max, window, since_hours, since, q, dry_run. Optional numeric fields are
`Option Int`, absent meaning the TypeScript `undefined`. -/
structure FetchEmailsParams where
  provider : String
  max : Option Int
  window : String
  since_hours : Option Int
  since : String
  q : String
  dry_run : Bool
deriving DecidableEq, Repr

/-- The fetch-emails result fields the Converter page inspects
(handleSubmit lines 111-124): processed, already_processed and the optional
calendar_events array (absent modelled as the empty list, matching the
`?.length || 0` coercion). -/
structure FetchEmailsResult where
  processed : Nat
  already_processed : Nat
  calendar_events : List String
deriving DecidableEq, Repr

/-- The snackbar state of the Converter page: showSnackbar, snackbarMessage
and snackbarSeverity (one of success, error, info, warning). -/
structure SnackbarState where
  showSnackbar : Bool
  snackbarMessage : String
  snackbarSeverity : String
deriving DecidableEq, Repr

/-- The params object handleSubmit builds before calling fetchEmails
(Converter.tsx lines 101-107): provider forced to google_tasks, `max` and
`since_hours` re-coerced through JavaScript truthiness (`x ? Number(x) :
undefined`, under which 0 is falsy and becomes undefined), dry_run defaulted
with `|| false`. -/
def handleSubmitParams (formData : FetchEmailsParams) : FetchEmailsParams :=
  { formData with
    provider := "google_tasks"
    max := match formData.max with
      | some n => if n = 0 then none else some n
      | none => none
    since_hours := match formData.since_hours with
      | some n => if n = 0 then none else some n
      | none => none
    dry_run := formData.dry_run || false }

/-- The snackbar message of the success branch (Converter.tsx lines
120-124). -/
def successMessage (result : FetchEmailsResult) : String :=
  "Successfully processed " ++ toString result.processed
    ++ " email(s) and created " ++ toString result.processed ++ " task(s)!"
    ++ (if 0 < result.calendar_events.length then
          " Also created " ++ toString result.calendar_events.length
            ++ " calendar event(s)."
        else "")

/-- The snackbar state handleSubmit leaves (Converter.tsx lines 109-138):
a resolved fetchEmails call is reported as warning (nothing matched), info
(all already processed) or success; a rejected one lands in the catch block,
which shows the extracted error message with severity error. The
`outcome` argument carries the settled promise of fetchEmails; for the
rejected case its string is the message the catch block extracts
(`err instanceof Error ? err.message : 'An error occurred'`). -/
def handleSubmitOutcome (outcome : Except String FetchEmailsResult) :
    SnackbarState :=
  match outcome with
  | Except.error msg => { showSnackbar := true, snackbarMessage := msg, snackbarSeverity := "error" }
  | Except.ok result =>
    if result.processed = 0 ∧ result.already_processed = 0 then
      { showSnackbar := true
        snackbarMessage := "No emails found matching your criteria."
        snackbarSeverity := "warning" }
    else if result.processed = 0 ∧ 0 < result.already_processed then
      { showSnackbar := true
        snackbarMessage := "Found " ++ toString result.already_processed
          ++ " emails, but they were already processed. No new tasks created."
        snackbarSeverity := "info" }
    else
      { showSnackbar := true
        snackbarMessage := successMessage result
        snackbarSeverity := "success" }

/-- Modelled from the spec: the api client module (src/client/src/api.ts,
imported by Converter.tsx but not among the repository files here)
serializes a FetchEmailsParams object into the query string of the
/api/fetch-emails request; per the specification the query params are
provider, max, window, since_hours, since, q and dry_run, with the
undefined optional fields left out. -/
def paramsToQuery (p : FetchEmailsParams) : List (String × String) :=
  [("provider", p.provider)]
    ++ (match p.max with | some n => [("max", toString n)] | none => [])
    ++ [("window", p.window)]
    ++ (match p.since_hours with
        | some n => [("since_hours", toString n)]
        | none => [])
    ++ [("since", p.since)]
    ++ [("q", p.q)]
    ++ [("dry_run", if p.dry_run then "true" else "false")]

/-- The query parameter names the specification lists for
/api/fetch-emails. -/
def allowedParamKeys : List String :=
  ["provider", "max", "window", "since_hours", "since", "q", "dry_run"]

end Converter

namespace AppJs

/-- The fields of the parsed /api/fetch-emails JSON body that
emailProcessor.fetch inspects: data.processed and data.error. Either may be
absent (the TypeScript/JavaScript `undefined`). -/
structure ResponseData where
  processed : Option Int
  error : Option String
deriving DecidableEq, Repr

/-- The outcome of `response.json()`: a parsed body, or a thrown parse error
carrying its message. -/
inductive JsonBody where
  | parsed (data : ResponseData)
  | parseError (msg : String)
deriving DecidableEq, Repr

/-- The resolved `fetch` response as the code reads it: status,
the redirected flag, the final url, and the body. -/
structure HttpResponse where
  status : Nat
  redirected : Bool
  url : String
  body : JsonBody
deriving DecidableEq, Repr

/-- One server or network behaviour for the single request a fetch call
issues: the promise resolves with a response, or rejects with a network
error message. -/
inductive NetworkResult where
  | response (r : HttpResponse)
  | networkFailure (msg : String)
deriving DecidableEq, Repr

/-- The `response.ok` flag: status in the 200-299 range. -/
def isOkStatus (status : Nat) : Bool :=
  decide (200 ≤ status ∧ status < 300)

/-- The object emailProcessor.fetch resolves with: a success flag, the error
string when there is one, the parsed data when there is one, the redirect
flag, and the url assigned to window.location.href when the code
navigates. -/
structure FetchReturn where
  success : Bool
  error : Option String
  data : Option ResponseData
  redirect : Bool
  navigatedTo : Option String
deriving DecidableEq, Repr

/-- JavaScript `x || d` on `data.error`: the default replaces both an absent
field and an empty string (the two falsy cases a string field can take). -/
def jsOrDefault (o : Option String) (d : String) : String :=
  match o with
  | some s => if s = "" then d else s
  | none => d

/-- emailProcessor.fetch (src/unnamed/part_005 lines 101-134): issue one
request; if the response is a redirect (redirected flag or status 302),
navigate to response.url and resolve with success/redirect; otherwise parse
the JSON body, and on an ok status either navigate to /no-emails-found (when
data.processed === 0) or resolve with the data, while a non-ok status
resolves with success false and `data.error || 'An error occurred while
processing emails'`. The try/catch spans both awaits, so a rejected fetch
and a body that fails to parse both resolve with success false and
`'Network error: ' + error.message`; no exception escapes. -/
def fetch (net : NetworkResult) : FetchReturn :=
  match net with
  | NetworkResult.networkFailure msg =>
      ⟨false, some ("Network error: " ++ msg), none, false, none⟩
  | NetworkResult.response r =>
    if r.redirected || r.status == 302 then
      ⟨true, none, none, true, some r.url⟩
    else
      match r.body with
      | JsonBody.parseError msg =>
          ⟨false, some ("Network error: " ++ msg), none, false, none⟩
      | JsonBody.parsed data =>
        if isOkStatus r.status then
          if data.processed = some 0 then
            ⟨true, none, some data, true, some "/no-emails-found"⟩
          else
            ⟨true, none, some data, false, none⟩
        else
          ⟨false,
            some (jsOrDefault data.error
              "An error occurred while processing emails"),
            none, false, none⟩

/-- The query string `new URLSearchParams(params).toString()` builds from the
form data, with the platform's percent-encoding abstracted away (no claim
here depends on the encoding of the values). -/
def urlSearchParams (params : List (String × String)) : String :=
  String.intercalate "&" (params.map (fun kv => kv.1 ++ "=" ++ kv.2))

/-- The request url of the one fetch call, part_005 line 105. -/
def fetchEmailsUrl (params : List (String × String)) : String :=
  "/api/fetch-emails?" ++ urlSearchParams params

/-- The requests one call of emailProcessor.fetch issues: the function body
contains a single unconditional `fetch(...)` call (line 105) and no loop or
recursion, so every call issues exactly this one request, whatever the
outcome. -/
def fetchRequests (params : List (String × String)) : List String :=
  [fetchEmailsUrl params]

/-- The page elements the static front end's handlers touch. -/
structure PageState where
  loadingVisible : Bool
  resultsVisible : Bool
  errorVisible : Bool
  errorContent : String
  fetchBtnDisabled : Bool
deriving DecidableEq, Repr

/-- emailProcessor.displayError (part_005 lines 189-192): put the message in
the error element and make it visible. -/
def displayError (msg : String) (s : PageState) : PageState :=
  { s with errorContent := msg, errorVisible := true }

/-- emailProcessor.displayResults, as far as visibility goes: show the
results element. -/
def displayResults (s : PageState) : PageState :=
  { s with resultsVisible := true }

/-- emailProcessor.showLoading (part_005 lines 194-198). -/
def showLoading (s : PageState) : PageState :=
  { s with loadingVisible := true, resultsVisible := false, errorVisible := false }

/-- emailProcessor.hideLoading (part_005 lines 200-202). -/
def hideLoading (s : PageState) : PageState :=
  { s with loadingVisible := false }

/-- The fetchForm submit handler (part_005 lines 213-238): preventDefault,
read the form data, show the loading state and disable the button, await
emailProcessor.fetch once, then display the results or the error (a missing
error string would render as the text "undefined", matching textContent
coercion); an early return on redirect skips the epilogue that hides the
loading state and re-enables the button. The second component is the list
of requests the submission issues. -/
def handleFetchFormSubmit (formData : List (String × String))
    (net : NetworkResult) (s : PageState) : PageState × List String :=
  let s1 := { showLoading s with fetchBtnDisabled := true }
  let result := fetch net
  let requests := fetchRequests formData
  if result.success then
    if result.redirect then
      (s1, requests)
    else
      ({ hideLoading (displayResults s1) with fetchBtnDisabled := false },
        requests)
  else
    ({ hideLoading (displayError (result.error.getD "undefined") s1) with
        fetchBtnDisabled := false },
      requests)

end AppJs

namespace Server

/-- Modelled from the spec: an email of a fetched batch, as the server-side
pipeline (not among the repository files here) sees it; only the Gmail
message id drives deduplication. -/
structure Email where
  msgId : String
  subject : String
deriving DecidableEq, Repr

/-- Modelled from the spec: the running state of one fetch-emails run over a
batch: the processed and already_processed counters of the JSON result, the
message ids a task was created for, and the processed.json store of handled
message ids. -/
structure RunState where
  processed : Nat
  already_processed : Nat
  createdTasks : List String
  store : List String
deriving DecidableEq, Repr

/-- Modelled from the spec: handling one fetched email. A message id already
recorded in processed.json is only counted under already_processed; a new one
gets a task created, is counted under processed and is appended to the
store. -/
def processEmail (acc : RunState) (e : Email) : RunState :=
  if e.msgId ∈ acc.store then
    { acc with already_processed := acc.already_processed + 1 }
  else
    { processed := acc.processed + 1
      already_processed := acc.already_processed
      createdTasks := acc.createdTasks ++ [e.msgId]
      store := acc.store ++ [e.msgId] }

/-- Modelled from the spec: one fetch-emails run folds the handling of each
fetched email over the store loaded from processed.json, starting from zero
counters. -/
def processBatch (store : List String) (batch : List Email) : RunState :=
  batch.foldl processEmail
    { processed := 0, already_processed := 0, createdTasks := [], store := store }

/-- Modelled from the spec: the /api/fetch-emails endpoint answers a run that
raised nothing with HTTP 200 and the run's JSON result (first component =
status code). -/
def fetchEmailsEndpoint (store : List String) (batch : List Email) :
    Nat × RunState :=
  (200, processBatch store batch)

/-- Modelled from the spec: a failing fetch-emails request is answered with
an HTTP status code and a JSON error payload, which the front end reads
through data.error. -/
def errorPayloadResponse (status : Nat) (msg : String) : AppJs.HttpResponse :=
  { status := status
    redirected := false
    url := "/api/fetch-emails"
    body := AppJs.JsonBody.parsed { processed := none, error := some msg } }

end Server

namespace utils

/-- A settings object as getFormData produces it: a flat object with string
values, as an association list in insertion order. -/
abbrev Settings := List (String × String)

/-- JSON string escaping of one character, for the flat objects the settings
round through: backslash and double quote are escaped (the settings the form
produces contain no control characters, which this model leaves out). -/
def escapeChar (c : Char) : List Char :=
  if c = '\\' then ['\\', '\\']
  else if c = '"' then ['\\', '"']
  else [c]

/-- JSON string escaping. -/
def escapeString (s : String) : String :=
  String.mk (s.data.flatMap escapeChar)

/-- A JSON string literal. -/
def quoteString (s : String) : String :=
  "\"" ++ escapeString s ++ "\""

/-- Model of the platform JSON.stringify on the flat string-to-string
objects utils.saveSettings writes: the members in order, between braces. -/
def jsonStringify (settings : Settings) : String :=
  "\x7b"
    ++ String.intercalate ","
        (settings.map (fun kv => quoteString kv.1 ++ ":" ++ quoteString kv.2))
    ++ "\x7d"

/-- Unescaping of one escaped character; an escape JSON does not define
fails, as JSON.parse throws there. -/
def unescapeChar (c : Char) : Option Char :=
  if c = '\\' then some '\\'
  else if c = '"' then some '"'
  else none

/-- Reading one JSON string body up to its closing quote, returning the
string and the rest of the input. -/
def parseJsonString : List Char → Option (String × List Char)
  | [] => none
  | '"' :: rest => some ("", rest)
  | '\\' :: [] => none
  | '\\' :: e :: rest =>
    match unescapeChar e with
    | none => none
    | some u =>
      match parseJsonString rest with
      | none => none
      | some (s, r) => some (String.mk (u :: s.data), r)
  | c :: rest =>
    match parseJsonString rest with
    | none => none
    | some (s, r) => some (String.mk (c :: s.data), r)

/-- Reading the members of a flat JSON object after its opening brace,
consuming the closing brace; fuel-driven so the definition is structurally
total. -/
def parseMembers : Nat → List Char → Option (Settings × List Char)
  | 0, _ => none
  | fuel + 1, '"' :: rest =>
    match parseJsonString rest with
    | some (key, ':' :: '"' :: r2) =>
      match parseJsonString r2 with
      | some (value, ',' :: r3) =>
        (match parseMembers fuel r3 with
          | none => none
          | some (m, r) => some ((key, value) :: m, r))
      | some (value, '\x7d' :: r3) => some ([(key, value)], r3)
      | _ => none
    | _ => none
  | _, _ => none

/-- Model of the platform JSON.parse restricted to the flat string-to-string
objects the settings round through; anything else throws, which the model
returns as an error message. -/
def jsonParse (s : String) : Except String Settings :=
  match s.data with
  | '\x7b' :: '\x7d' :: [] => Except.ok []
  | '\x7b' :: rest =>
    (match parseMembers (rest.length + 1) rest with
      | some (m, []) => Except.ok m
      | _ => Except.error "Unexpected token in JSON")
  | _ => Except.error "Unexpected token in JSON"

/-- utils.saveSettings (part_005 lines 25-27, identically
src/static/js/app.js): overwrite the emailToTaskSettings key of localStorage
(here the Option String the key holds) with JSON.stringify of the
settings. -/
def saveSettings (settings : Settings) (_old : Option String) : Option String :=
  some (jsonStringify settings)

/-- utils.loadSettings (part_005 lines 30-33): read the emailToTaskSettings
key; a falsy read (the key absent, or an empty string stored) yields the
empty object, anything else goes through JSON.parse, whose throw the model
returns as an error. -/
def loadSettings (storage : Option String) : Except String Settings :=
  match storage with
  | none => Except.ok []
  | some s => if s = "" then Except.ok [] else jsonParse s

end utils

/-! Helper lemmas about the embedded definitions. -/

namespace Server

theorem processEmail_store_mem (acc : RunState) (e : Email) (id : String)
    (h : id ∈ acc.store) : id ∈ (processEmail acc e).store := by
  unfold processEmail
  split
  · exact h
  · exact List.mem_append_left _ h

theorem foldl_store_mem (batch : List Email) (acc : RunState) (id : String)
    (h : id ∈ acc.store) : id ∈ (batch.foldl processEmail acc).store := by
  induction batch generalizing acc with
  | nil => exact h
  | cons e rest ih => exact ih _ (processEmail_store_mem acc e id h)

theorem foldl_created_not_mem (batch : List Email) (acc : RunState)
    (id : String) (hstore : id ∈ acc.store) (hnot : id ∉ acc.createdTasks) :
    id ∉ (batch.foldl processEmail acc).createdTasks := by
  induction batch generalizing acc with
  | nil => exact hnot
  | cons e rest ih =>
    refine ih (processEmail acc e) (processEmail_store_mem acc e id hstore) ?_
    unfold processEmail
    split
    · exact hnot
    · rename_i hmem
      intro hin
      rcases List.mem_append.mp hin with h1 | h2
      · exact hnot h1
      · rcases List.mem_singleton.mp h2 with rfl
        exact hmem hstore

theorem foldl_store_count (batch : List Email) (acc : RunState) (id : String)
    (hstore : id ∈ acc.store) :
    List.count id (batch.foldl processEmail acc).store
      = List.count id acc.store := by
  induction batch generalizing acc with
  | nil => rfl
  | cons e rest ih =>
    rw [List.foldl_cons, ih (processEmail acc e) (processEmail_store_mem acc e id hstore)]
    unfold processEmail
    split
    · rfl
    · rename_i hmem
      have hne : e.msgId ≠ id := fun h => hmem (h ▸ hstore)
      have h0 : List.count id [e.msgId] = 0 :=
        List.count_eq_zero.mpr (fun hmem2 =>
          hne ((List.mem_singleton.mp hmem2).symm))
      rw [List.count_append, h0]
      omega

theorem foldl_already_mono (batch : List Email) (acc : RunState) :
    acc.already_processed ≤ (batch.foldl processEmail acc).already_processed := by
  induction batch generalizing acc with
  | nil => exact Nat.le_refl _
  | cons e rest ih =>
    refine Nat.le_trans ?_ (ih (processEmail acc e))
    unfold processEmail
    split
    · exact Nat.le_succ _
    · exact Nat.le_refl _

theorem foldl_already_hit (batch : List Email) (acc : RunState) (id : String)
    (hstore : id ∈ acc.store) (hbatch : ∃ e ∈ batch, e.msgId = id) :
    acc.already_processed + 1 ≤ (batch.foldl processEmail acc).already_processed := by
  induction batch generalizing acc with
  | nil => rcases hbatch with ⟨e, he, _⟩; cases he
  | cons e rest ih =>
    rcases hbatch with ⟨f, hf, hfid⟩
    rcases List.mem_cons.mp hf with rfl | hrest
    · have hstep : (processEmail acc f).already_processed = acc.already_processed + 1 := by
        unfold processEmail
        rw [if_pos (hfid ▸ hstore)]
      calc acc.already_processed + 1 = (processEmail acc f).already_processed :=
            hstep.symm
        _ ≤ (rest.foldl processEmail (processEmail acc f)).already_processed :=
            foldl_already_mono rest _
    · have hmono : acc.already_processed ≤ (processEmail acc e).already_processed := by
        unfold processEmail
        split
        · exact Nat.le_succ _
        · exact Nat.le_refl _
      have := ih (processEmail acc e) (processEmail_store_mem acc e id hstore)
        ⟨f, hrest, hfid⟩
      rw [List.foldl_cons]
      omega

theorem foldl_processed_eq_created (batch : List Email) (acc : RunState)
    (h : acc.processed = acc.createdTasks.length) :
    (batch.foldl processEmail acc).processed
      = (batch.foldl processEmail acc).createdTasks.length := by
  induction batch generalizing acc with
  | nil => exact h
  | cons e rest ih =>
    refine ih (processEmail acc e) ?_
    unfold processEmail
    split
    · exact h
    · simp [h]

theorem foldl_store_nodup (batch : List Email) (acc : RunState)
    (h : acc.store.Nodup) : (batch.foldl processEmail acc).store.Nodup := by
  induction batch generalizing acc with
  | nil => exact h
  | cons e rest ih =>
    refine ih (processEmail acc e) ?_
    unfold processEmail
    split
    · exact h
    · rename_i hmem
      simp [List.nodup_append, h, hmem]

end Server

namespace utils

theorem jsonStringify_ne_empty (settings : Settings) :
    jsonStringify settings ≠ "" := by
  intro h
  have h2 := congrArg String.length h
  simp [jsonStringify, String.length_append] at h2
  exact absurd h2.1.1 (by decide)

end utils

namespace AppJs

theorem network_error_ne_empty (msg : String) :
    "Network error: " ++ msg ≠ "" := by
  intro h
  have h2 := congrArg String.length h
  rw [String.length_append] at h2
  have h3 : ("Network error: " : String).length = 15 := by decide
  have h4 : ("" : String).length = 0 := by decide
  omega

theorem jsOrDefault_ne_empty (o : Option String) (d : String) (hd : d ≠ "") :
    jsOrDefault o d ≠ "" := by
  unfold jsOrDefault
  cases o with
  | none => exact hd
  | some s =>
    dsimp only
    split
    · exact hd
    · assumption

theorem fetch_failure_error_nonempty (net : NetworkResult)
    (h : (fetch net).success = false) :
    ∃ e, (fetch net).error = some e ∧ e ≠ "" := by
  cases net with
  | networkFailure msg => exact ⟨_, rfl, network_error_ne_empty msg⟩
  | response r =>
    by_cases hred : (r.redirected || r.status == 302) = true
    · simp [fetch, hred] at h
    · rw [Bool.not_eq_true] at hred
      cases hbody : r.body with
      | parseError msg =>
        refine ⟨_, ?_, network_error_ne_empty msg⟩
        simp [fetch, hred, hbody]
      | parsed data =>
        by_cases hok : isOkStatus r.status = true
        · by_cases hp : data.processed = some 0 <;>
            simp [fetch, hred, hbody, hok, hp] at h
        · refine ⟨_, ?_, jsOrDefault_ne_empty data.error
            "An error occurred while processing emails" (by decide)⟩
          rw [Bool.not_eq_true] at hok
          simp [fetch, hred, hbody, hok]

theorem handleFetchFormSubmit_requests (formData : List (String × String))
    (net : NetworkResult) (s : PageState) :
    (handleFetchFormSubmit formData net s).2 = [fetchEmailsUrl formData] := by
  unfold handleFetchFormSubmit fetchRequests
  dsimp only
  split
  · split <;> rfl
  · rfl

theorem handleFetchFormSubmit_failure_display (formData : List (String × String))
    (net : NetworkResult) (s : PageState) (e : String)
    (hs : (fetch net).success = false) (he : (fetch net).error = some e) :
    (handleFetchFormSubmit formData net s).1.errorVisible = true
    ∧ (handleFetchFormSubmit formData net s).1.errorContent = e := by
  unfold handleFetchFormSubmit
  dsimp only
  rw [hs]
  simp [displayError, hideLoading, showLoading, he]

end AppJs

/-! The claims. -/

/-- C1: for every message id already recorded in the processed store,
running the fetch-emails operation again over a batch containing that email
is a no-op for it: no task is created for it (it never enters
createdTasks, and processed counts exactly the created tasks, so processed
excludes it), it is reported under already_processed, and its store entry is
not duplicated. -/
theorem reprocessing_is_noop (store : List String) (batch : List Server.Email)
    (id : String) (hid : id ∈ store)
    (hbatch : ∃ e ∈ batch, e.msgId = id) :
    id ∉ (Server.processBatch store batch).createdTasks
    ∧ 1 ≤ (Server.processBatch store batch).already_processed
    ∧ (Server.processBatch store batch).processed
        = (Server.processBatch store batch).createdTasks.length
    ∧ List.count id (Server.processBatch store batch).store
        = List.count id store := by
  unfold Server.processBatch
  refine ⟨Server.foldl_created_not_mem batch _ id hid (by simp), ?_,
    Server.foldl_processed_eq_created batch _ rfl,
    Server.foldl_store_count batch _ id hid⟩
  have h := Server.foldl_already_hit batch
    { processed := 0, already_processed := 0, createdTasks := [], store := store }
    id hid hbatch
  simpa using h

/-- Witness for C1 at a concrete input: a store already holding m1 and a
batch containing an email with id m1 reports it under already_processed. -/
theorem reprocessing_is_noop_witness :
    1 ≤ (Server.processBatch ["m1"] [⟨"m1", "s"⟩]).already_processed :=
  (reprocessing_is_noop ["m1"] [⟨"m1", "s"⟩] "m1" (by decide)
    ⟨⟨"m1", "s"⟩, by decide, rfl⟩).2.1

/-- C2: a fetch-emails request whose query matches zero emails is answered
with HTTP 200 (success, no error) and processed = 0 (nothing already
processed and no task created either), and the client reports that outcome
as a warning snackbar, not as an error. -/
theorem empty_batch_processed_zero (store : List String) :
    (Server.fetchEmailsEndpoint store []).1 = 200
    ∧ (Server.fetchEmailsEndpoint store []).2.processed = 0
    ∧ (Server.fetchEmailsEndpoint store []).2.already_processed = 0
    ∧ (Server.fetchEmailsEndpoint store []).2.createdTasks = []
    ∧ (Converter.handleSubmitOutcome (Except.ok ⟨0, 0, []⟩)).snackbarSeverity
        = "warning"
    ∧ (Converter.handleSubmitOutcome (Except.ok ⟨0, 0, []⟩)).snackbarMessage
        = "No emails found matching your criteria." :=
  ⟨rfl, rfl, rfl, rfl, rfl, rfl⟩

/-- C3: a failing fetch-emails request surfaces as a JSON error payload with
an HTTP status code, the static front end resolves it to a success=false
result and renders the message in the error alert element, a rejected fetch
likewise resolves to a displayed Network error message, and the Converter
page's catch block shows the message in an error snackbar; no exception
escapes (every embedded handler is a total function of the failure). -/
theorem failure_surfaced_and_displayed (status : Nat) (msg : String)
    (formData : List (String × String)) (s : AppJs.PageState)
    (emsg nmsg : String) (hstatus : AppJs.isOkStatus status = false)
    (h302 : status ≠ 302) (hmsg : msg ≠ "") :
    ((AppJs.fetch (AppJs.NetworkResult.response
        (Server.errorPayloadResponse status msg))).success = false
      ∧ (AppJs.fetch (AppJs.NetworkResult.response
          (Server.errorPayloadResponse status msg))).error = some msg)
    ∧ ((AppJs.handleFetchFormSubmit formData (AppJs.NetworkResult.response
          (Server.errorPayloadResponse status msg)) s).1.errorVisible = true
      ∧ (AppJs.handleFetchFormSubmit formData (AppJs.NetworkResult.response
          (Server.errorPayloadResponse status msg)) s).1.errorContent = msg)
    ∧ ((AppJs.fetch (AppJs.NetworkResult.networkFailure nmsg)).success = false
      ∧ (AppJs.handleFetchFormSubmit formData
          (AppJs.NetworkResult.networkFailure nmsg) s).1.errorVisible = true
      ∧ (AppJs.handleFetchFormSubmit formData
          (AppJs.NetworkResult.networkFailure nmsg) s).1.errorContent
            = "Network error: " ++ nmsg)
    ∧ ((Converter.handleSubmitOutcome (Except.error emsg)).showSnackbar = true
      ∧ (Converter.handleSubmitOutcome (Except.error emsg)).snackbarMessage = emsg
      ∧ (Converter.handleSubmitOutcome (Except.error emsg)).snackbarSeverity
          = "error") := by
  have hbeq : (status == 302) = false := by
    simp [h302]
  have hsf : (AppJs.fetch (AppJs.NetworkResult.response
      (Server.errorPayloadResponse status msg))).success = false := by
    simp [AppJs.fetch, Server.errorPayloadResponse, hbeq, hstatus]
  have hse : (AppJs.fetch (AppJs.NetworkResult.response
      (Server.errorPayloadResponse status msg))).error = some msg := by
    simp [AppJs.fetch, Server.errorPayloadResponse, hbeq, hstatus,
      AppJs.jsOrDefault, hmsg]
  have hnf : (AppJs.fetch (AppJs.NetworkResult.networkFailure nmsg)).success
      = false := rfl
  have hne : (AppJs.fetch (AppJs.NetworkResult.networkFailure nmsg)).error
      = some ("Network error: " ++ nmsg) := rfl
  have hd1 := AppJs.handleFetchFormSubmit_failure_display formData
    (AppJs.NetworkResult.response (Server.errorPayloadResponse status msg))
    s msg hsf hse
  have hd2 := AppJs.handleFetchFormSubmit_failure_display formData
    (AppJs.NetworkResult.networkFailure nmsg) s ("Network error: " ++ nmsg)
    hnf hne
  exact ⟨⟨hsf, hse⟩, hd1, ⟨hnf, hd2.1, hd2.2⟩, rfl, rfl, rfl⟩

/-- Witness for C3 at a concrete input: a 500 response with error payload
"boom" resolves to error = some "boom". -/
theorem failure_surfaced_and_displayed_witness :
    (AppJs.fetch (AppJs.NetworkResult.response
      (Server.errorPayloadResponse 500 "boom"))).error = some "boom" :=
  (failure_surfaced_and_displayed 500 "boom" []
    ⟨false, false, false, "", false⟩ "x" "y"
    (by decide) (by decide) (by decide)).1.2

/-- C4: the processed store holds each message id at most once, and one
fetch-emails run (which appends only the ids it newly handles) preserves
that uniqueness invariant. -/
theorem processed_store_unique (store : List String)
    (batch : List Server.Email) (h : store.Nodup) :
    (Server.processBatch store batch).store.Nodup
    ∧ ∀ id, List.count id (Server.processBatch store batch).store ≤ 1 := by
  have hn := Server.foldl_store_nodup batch
    { processed := 0, already_processed := 0, createdTasks := [], store := store } h
  exact ⟨hn, fun id => List.nodup_iff_count_le_one.mp hn id⟩

/-- Witness for C4 at a concrete input: a run over a batch that repeats a
new id still leaves the store without duplicates. -/
theorem processed_store_unique_witness :
    (Server.processBatch ["a"] [⟨"b", "s"⟩, ⟨"b", "t"⟩]).store.Nodup :=
  (processed_store_unique ["a"] [⟨"b", "s"⟩, ⟨"b", "t"⟩] (by decide)).1

/-- C5: every request the client builds for /api/fetch-emails carries query
parameters drawn only from provider, max, window, since_hours, since, q and
dry_run, and the provider the Converter page submits is always
google_tasks. -/
theorem request_params_within_spec (formData : Converter.FetchEmailsParams) :
    ((Converter.paramsToQuery (Converter.handleSubmitParams formData)).map
        Prod.fst) ⊆ Converter.allowedParamKeys
    ∧ (Converter.handleSubmitParams formData).provider = "google_tasks" := by
  refine ⟨?_, rfl⟩
  intro k hk
  rcases hm : (Converter.handleSubmitParams formData).max with _ | n <;>
    rcases hs : (Converter.handleSubmitParams formData).since_hours with _ | m <;>
    simp [Converter.paramsToQuery, hm, hs] at hk <;>
    rcases hk with rfl | rfl | rfl | rfl | rfl | rfl | rfl <;>
    simp [Converter.allowedParamKeys]

/-- C6: a successful DELETE removes from the client list exactly the entries
whose id equals the deleted id, keeps every other entry unchanged and in its
original relative order (the filtered list is a sublist of the original),
and a throwing delete leaves the list unchanged, setting only the error;
this holds for the tasks hook and for the calendar-events hook alike. -/
theorem deleteTask_removes_exactly_matching (s : TasksState) (es : EventsState)
    (taskId eventId : Int) (msg : String) :
    ((deleteTask s taskId (Except.ok ())).tasks
        = s.tasks.filter (fun t => t.id != taskId)
      ∧ List.Sublist (deleteTask s taskId (Except.ok ())).tasks s.tasks
      ∧ (∀ t, t ∈ (deleteTask s taskId (Except.ok ())).tasks
          ↔ t ∈ s.tasks ∧ t.id ≠ taskId))
    ∧ ((deleteTask s taskId (Except.error msg)).tasks = s.tasks
      ∧ (deleteTask s taskId (Except.error msg)).error = some msg
      ∧ (deleteTask s taskId (Except.error msg)).loading = s.loading)
    ∧ ((deleteEvent es eventId (Except.ok ())).events
        = es.events.filter (fun e => e.id != eventId)
      ∧ List.Sublist (deleteEvent es eventId (Except.ok ())).events es.events
      ∧ (∀ e, e ∈ (deleteEvent es eventId (Except.ok ())).events
          ↔ e ∈ es.events ∧ e.id ≠ eventId))
    ∧ ((deleteEvent es eventId (Except.error msg)).events = es.events
      ∧ (deleteEvent es eventId (Except.error msg)).error = some msg) := by
  refine ⟨⟨rfl, ?_, ?_⟩, ⟨rfl, rfl, rfl⟩, ⟨rfl, ?_, ?_⟩, rfl, rfl⟩
  · exact List.filter_sublist s.tasks
  · intro t
    simp [deleteTask, List.mem_filter]
  · exact List.filter_sublist es.events
  · intro e
    simp [deleteEvent, List.mem_filter]

/-- C7: one form submission issues exactly one HTTP request to
/api/fetch-emails whatever the server or network does, and a failure makes
the operation return an error result without a further request (the request
list of the whole submission has length at most one). -/
theorem submission_issues_single_request (formData : List (String × String))
    (net : AppJs.NetworkResult) (s : AppJs.PageState) :
    (AppJs.handleFetchFormSubmit formData net s).2
        = [AppJs.fetchEmailsUrl formData]
    ∧ (AppJs.handleFetchFormSubmit formData net s).2.length ≤ 1
    ∧ ((AppJs.fetch net).success = false →
        ∃ e, (AppJs.fetch net).error = some e) := by
  have hreq := AppJs.handleFetchFormSubmit_requests formData net s
  refine ⟨hreq, by rw [hreq]; exact Nat.le_refl 1, fun h => ?_⟩
  rcases AppJs.fetch_failure_error_nonempty net h with ⟨e, he, _⟩
  exact ⟨e, he⟩

/-- C8: when loading tasks or calendar events throws, the stored list is left
unchanged, only the error message is set, and the loading flag is reset to
false. -/
theorem load_error_preserves_items (s : TasksState) (es : EventsState)
    (msg : String) :
    (loadTasks s (Except.error msg)).tasks = s.tasks
    ∧ (loadTasks s (Except.error msg)).error = some msg
    ∧ (loadTasks s (Except.error msg)).loading = false
    ∧ (loadEvents es (Except.error msg)).events = es.events
    ∧ (loadEvents es (Except.error msg)).error = some msg
    ∧ (loadEvents es (Except.error msg)).loading = false :=
  ⟨rfl, rfl, rfl, rfl, rfl, rfl⟩

/-- C9: loadSettings after saveSettings(settings) returns exactly the JSON
round-trip of the settings object (JSON.parse of JSON.stringify — which on a
concrete flat settings object is the object itself), and loadSettings with
nothing ever saved returns the empty object rather than failing. -/
theorem settings_roundtrip (settings : utils.Settings) (old : Option String) :
    utils.loadSettings (utils.saveSettings settings old)
        = utils.jsonParse (utils.jsonStringify settings)
    ∧ utils.loadSettings none = Except.ok []
    ∧ utils.loadSettings (utils.saveSettings
        [("provider", "google_tasks"), ("q", "a\"b\\c")] none)
        = Except.ok [("provider", "google_tasks"), ("q", "a\"b\\c")] := by
  refine ⟨?_, rfl, by rfl⟩
  simp [utils.loadSettings, utils.saveSettings,
    utils.jsonStringify_ne_empty settings]

/-- C10: emailProcessor.fetch is total over its outcomes: whatever the
server or network does (success, redirect, non-ok status, malformed JSON,
thrown network error) it resolves with an object whose success field is a
boolean, never letting an exception escape (the embedding is a total
function of the behaviour), and whenever success is false the object carries
a non-empty error string. -/
theorem fetch_total_over_outcomes (net : AppJs.NetworkResult) :
    ((AppJs.fetch net).success = true ∨ (AppJs.fetch net).success = false)
    ∧ ((AppJs.fetch net).success = false →
        ∃ e, (AppJs.fetch net).error = some e ∧ e ≠ "") := by
  refine ⟨?_, fun h => AppJs.fetch_failure_error_nonempty net h⟩
  cases h : (AppJs.fetch net).success
  · exact Or.inr rfl
  · exact Or.inl rfl

end EmailToTask
